import Mathlib

/-!
Shallow embedding of the core of the `tai` repository (Go): the application
state model (`internal/state/interfaces.go`), the memory state store
(`internal/state/memory.go`), the agent actions (`internal/agent/actions.go`),
and the LM Studio provider's retry executor and streaming decode loop
(`internal/llm/lmstudio.go`).

Go `time.Time` values are modelled as natural numbers (`time.Time.Equal`
becomes equality on `Nat`); Go errors are modelled by the inductive `GoErr`
which tracks `fmt.Errorf("...: %w", e)` wrapping; `strings.Contains` becomes
`goContains`.
-/

namespace Tai

/-- `state.Role`: role of a message sender (`user`/`assistant`/`system`/`tool`). -/
inductive Role where
| user
| assistant
| system
| tool
deriving DecidableEq, Repr

/-- `state.Mode`: operating mode of the agent. -/
inductive Mode where
| plan
| execute
| yolo
deriving DecidableEq, Repr

/-- Go `error` values: either a plain error with a message, or an error built by
`fmt.Errorf("prefixText%w", inner)` which wraps an inner error. -/
inductive GoErr where
| simple (msg : String)
| wrap (pre : String) (inner : GoErr)
deriving DecidableEq, Repr

/-- The text returned by `Error()` on a `GoErr`. -/
def GoErr.text : GoErr → String
| .simple m => m
| .wrap pre inner => pre ++ inner.text

/-- Go `strings.Contains s sub`: `sub` occurs as a contiguous substring of `s`. -/
def goContains (s sub : String) : Bool :=
  decide (sub.toList <:+: s.toList)

/-- `state.ToolCallFunction`. -/
structure ToolCallFunction where
  name : String
  arguments : String
deriving DecidableEq, Repr

/-- `state.ToolCall`. -/
structure ToolCall where
  id : String
  toolType : String
  function : ToolCallFunction
deriving DecidableEq, Repr

/-- `state.TokenUsage` (fields `Prompt`, `Completion`, `Total`). -/
structure TokenUsage where
  prompt : Int := 0
  completion : Int := 0
  total : Int := 0
deriving DecidableEq, Repr

/-- `state.Message`: one message of the conversation. The Go `Timestamp`
(`time.Time`) is a `Nat`. -/
structure Message where
  role : Role
  content : String
  usage : TokenUsage := {}
  toolCalls : List ToolCall := []
  timestamp : Nat
deriving DecidableEq, Repr

/-- `state.Permissions`. -/
structure Permissions where
  allow : List String := []
  deny : List String := []
deriving DecidableEq, Repr

/-- `state.Context`: conversation metadata and the ordered message list. -/
structure Context where
  mode : Mode := .plan
  systemPrompt : String := ""
  sessionID : String := ""
  messages : List Message := []
  promptTokens : Int := 0
  completionTokens : Int := 0
  created : Nat := 0
  updated : Nat := 0
  workingDirectory : String := ""
deriving DecidableEq, Repr

/-- `state.Model`: active provider, model name and busy flag. -/
structure Model where
  provider : String := ""
  name : String := ""
  busy : Bool := false
deriving DecidableEq, Repr

/-- `state.AppState.Status` (anonymous struct with an `Error` field). -/
structure Status where
  error : Option GoErr := none
deriving DecidableEq, Repr

/-- `state.AppState`: the single source of truth. -/
structure AppState where
  permissions : Permissions := {}
  context : Context := {}
  model : Model := {}
  status : Status := {}
deriving DecidableEq, Repr

/-! ## Agent actions (`internal/agent/actions.go`)

Each Go action's `Execute` may read the clock (`time.Now()`); the embedding
passes that instant in as the explicit parameter `now`. -/

/-- The closed set of actions defined in `internal/agent/actions.go`. -/
inductive AgentAction where
| chatCompletionStarted (role : Role) (content : String)
| chatCompletionCompleted (success : Bool) (message : Message) (error : Option GoErr)
| messageChunk (message : Message)
| terminateAgent (reason : String)
deriving DecidableEq, Repr

/-- The scan of `MessageChunkAction.Execute`: walk the message list in order;
at the first entry matching the chunk's role and timestamp, the Go code sets
`a.Content = msg.Content + a.Content` and then executes
`s.Context.Messages = append(s.Context.Messages[:idx], a.Message)`, whose
observable result is the prefix before the match followed by the single merged
message (the entries after the match are dropped by the slice truncation).
Returns `none` when no entry matches. -/
def chunkScan (a : Message) : List Message → Option (List Message)
| [] => none
| msg :: rest =>
  if msg.role = a.role ∧ msg.timestamp = a.timestamp then
    some [{ a with content := msg.content ++ a.content }]
  else
    (chunkScan a rest).map (msg :: ·)

/-- `Action.Execute` for the closed action set, with `now` standing for the
value of `time.Now()` during the call. All four actions return a nil error. -/
def executeAction (a : AgentAction) (now : Nat) (s : AppState) : Except GoErr AppState :=
  match a with
  | .chatCompletionStarted role content =>
    .ok { s with
          model.busy := true,
          context.messages :=
            s.context.messages ++ [{ role := role, content := content, timestamp := now }] }
  | .chatCompletionCompleted _ _ _ =>
    .ok { s with model.busy := false }
  | .messageChunk m =>
    match chunkScan m s.context.messages with
    | some msgs => .ok { s with context.messages := msgs, context.updated := now }
    | none => .ok { s with context.messages := s.context.messages ++ [m] }
  | .terminateAgent _ =>
    .ok s

/-- One sequential `MemoryState.Dispatch` (`internal/state/memory.go`): run
`action.Execute` on the current state; on success stamp
`newState.Context.Updated = time.Now()` and install the new state; on failure
the store panics (modelled as `none`). `tExec` is the clock during `Execute`,
`tStamp` the clock at the stamping. -/
def dispatchStep (s : AppState) (step : AgentAction × Nat × Nat) : Option AppState :=
  match executeAction step.1 step.2.1 s with
  | .ok newState => some { newState with context.updated := step.2.2 }
  | .error _ => none

/-- Dispatching a sequence of actions one after another (the store's mutex
serializes dispatches, so the sequential model is faithful for a totally
ordered sequence of `Dispatch` calls). -/
def dispatchList (s : AppState) : List (AgentAction × Nat × Nat) → Option AppState
| [] => some s
| step :: rest =>
  match dispatchStep s step with
  | some s2 => dispatchList s2 rest
  | none => none

/-- The specification-side step of one dispatch: apply `Execute` and stamp the
updated-at timestamp (identical to `dispatchStep` on the success path; on the
impossible failure path it keeps the old state). -/
def applyDispatch (s : AppState) (step : AgentAction × Nat × Nat) : AppState :=
  match executeAction step.1 step.2.1 s with
  | .ok newState => { newState with context.updated := step.2.2 }
  | .error _ => s

theorem executeAction_ok (a : AgentAction) (now : Nat) (s : AppState) :
    ∃ s2, executeAction a now s = .ok s2 := by
  cases a with
  | chatCompletionStarted role content => exact ⟨_, rfl⟩
  | chatCompletionCompleted su m e => exact ⟨_, rfl⟩
  | messageChunk m =>
    simp only [executeAction]
    cases h : chunkScan m s.context.messages with
    | none => exact ⟨_, rfl⟩
    | some msgs => exact ⟨_, rfl⟩
  | terminateAgent r => exact ⟨_, rfl⟩

/-! ## Retry executor (`LMStudioProvider.retryRequest`, `internal/llm/lmstudio.go`)

The executor runs `fn()` up to `maxRetries` times. The embedding replaces the
closure `fn` and the context by oracles indexed by the zero-based attempt
index `i`:
* `attemptResult i`  — the error returned by the `i`-th call of `fn`
  (`none` = success);
* `ctxErrAfter i`    — the value of `ctx.Err()` read right after a failed
  `i`-th attempt (`none` = context not cancelled at that read);
* `ctxDuringBackoff i` — `some ce` when `ctx.Done()` fires (with `ctx.Err()`
  equal to `ce`) before the backoff timer after attempt `i` elapses. -/

structure RetryEnv where
  attemptResult : Nat → Option GoErr
  ctxErrAfter : Nat → Option GoErr
  ctxDuringBackoff : Nat → Option GoErr

/-- The value a retry run returns. -/
inductive RReturn where
| ok
| err (e : GoErr)
deriving DecidableEq, Repr

/-- Observable outcome of a retry run: the returned value, the number of
calls made to `fn`, and the backoff waits (in seconds) completed in full. -/
structure RetryResult where
  result : RReturn
  attempts : Nat
  waits : List Nat
deriving DecidableEq, Repr

/-- `fmt.Errorf("request failed after %d retries: %w", maxRetries, lastErr)`. -/
def aggregateErr (maxRetries : Nat) (lastErr : GoErr) : GoErr :=
  .wrap ("request failed after " ++ toString maxRetries ++ " retries: ") lastErr

/-- The `for i := 0; i < maxRetries; i++` loop of `retryRequest`, entered at
index `i` with the last failure `lastErr` and the completed waits so far.
`fuel` is the number of loop iterations left, kept equal to `maxRetries - i`
(so `fuel = 0` is exactly the loop's exit test `i < maxRetries` failing, at
which point the aggregate error is returned). The Go backoff is
`time.Duration(1<<uint(i)) * time.Second`, i.e. `2^i` seconds. -/
def retryLoop (env : RetryEnv) (maxRetries : Nat) :
    Nat → Nat → Option GoErr → List Nat → RetryResult
| 0, i, lastErr, waits =>
  match lastErr with
  | some e => ⟨.err (aggregateErr maxRetries e), i, waits⟩
  | none => ⟨.err (.simple ("request failed after " ++ toString maxRetries
      ++ " retries: %!w(<nil>)")), i, waits⟩
| fuel + 1, i, lastErr, waits =>
  match env.attemptResult i with
  | none => ⟨.ok, i + 1, waits⟩
  | some e =>
    match env.ctxErrAfter i with
    | some ce => ⟨.err ce, i + 1, waits⟩
    | none =>
      if goContains e.text "invalid_api_key" || goContains e.text "model_not_found" then
        ⟨.err e, i + 1, waits⟩
      else if i < maxRetries - 1 then
        match env.ctxDuringBackoff i with
        | some ce => ⟨.err ce, i + 1, waits⟩
        | none => retryLoop env maxRetries fuel (i + 1) (some e) (waits ++ [2 ^ i])
      else
        retryLoop env maxRetries fuel (i + 1) (some e) waits

/-- `LMStudioProvider.retryRequest`: `maxRetries` comes from the provider
config and defaults to 3 when the configured value is `<= 0`. -/
def retryRequest (maxRetriesCfg : Int) (env : RetryEnv) : RetryResult :=
  let maxRetries : Nat := if maxRetriesCfg ≤ 0 then 3 else maxRetriesCfg.toNat
  retryLoop env maxRetries maxRetries 0 none []

/-- The effective maximum attempt count of `retryRequest`. -/
def effectiveRetries (maxRetriesCfg : Int) : Nat :=
  if maxRetriesCfg ≤ 0 then 3 else maxRetriesCfg.toNat

/-! ## Streaming decode loop (`LMStudioProvider.StreamChatCompletion`)

The goroutine reads frames from the `go-openai` stream until `io.EOF` (the
`data: [DONE]` terminator) or a read error, and forwards converted chunks on
an unbuffered channel. The embedding replaces the stream by the list of
`stream.Recv()` outcomes (the list ending means the next `Recv` returns
`io.EOF`), and the context by the oracle `cancel : Nat → Bool` telling, for
the `k`-th raced `select { case chunkChan <- chunk: ... case <-ctx.Done(): }`,
whether the cancellation branch wins. The `closed` flag records the deferred
`close(chunkChan)` (and the paired `cancel()` / `stream.Close()` releases),
which run on every exit path. -/

/-- `openai.FunctionCall` of a streamed tool call. -/
structure OpenAIFunctionCall where
  name : String
  arguments : String
deriving DecidableEq, Repr

/-- `openai.ToolCall` as it appears in a stream delta. -/
structure OpenAIToolCall where
  id : String
  toolType : String
  function : OpenAIFunctionCall
deriving DecidableEq, Repr

/-- `openai.Usage` attached to a stream frame (pointer, hence optional). -/
structure OpenAIUsage where
  promptTokens : Int
  completionTokens : Int
  totalTokens : Int
deriving DecidableEq, Repr

/-- The `Delta` of a streamed choice. -/
structure OpenAIDelta where
  content : String
  toolCalls : List OpenAIToolCall
deriving DecidableEq, Repr

/-- One streamed choice. -/
structure OpenAIStreamChoice where
  delta : OpenAIDelta
deriving DecidableEq, Repr

/-- One frame (`openai.ChatCompletionStreamResponse`) read from the stream. -/
structure OpenAIStreamFrame where
  model : String
  choices : List OpenAIStreamChoice
  usage : Option OpenAIUsage
deriving DecidableEq, Repr

/-- `llm.TokenUsage` (the provider-side usage record). -/
structure LLMTokenUsage where
  promptTokens : Int := 0
  completionTokens : Int := 0
  totalTokens : Int := 0
deriving DecidableEq, Repr

/-- `llm.ChatStreamChunk`: one fragment handed to the consumer. -/
structure ChatStreamChunk where
  model : String := ""
  delta : String := ""
  toolCalls : List ToolCall := []
  usage : LLMTokenUsage := {}
  done : Bool := false
  error : Option GoErr := none
deriving DecidableEq, Repr

/-- `convertToolCallsFromOpenAI`. -/
def convertToolCallsFromOpenAI (tcs : List OpenAIToolCall) : List ToolCall :=
  tcs.map (fun tc =>
    { id := tc.id, toolType := tc.toolType,
      function := { name := tc.function.name, arguments := tc.function.arguments } })

/-- The chunk built from a frame whose choice list is non-empty, `c` being
`response.Choices[0]`: usage is copied when `response.Usage != nil` (zero
value otherwise), `Delta` is the first choice's delta content, and tool calls
are converted only when the delta carries at least one. -/
def mkStreamChunk (f : OpenAIStreamFrame) (c : OpenAIStreamChoice) : ChatStreamChunk :=
  { model := f.model,
    delta := c.delta.content,
    usage := match f.usage with
      | some u => { promptTokens := u.promptTokens, completionTokens := u.completionTokens,
                    totalTokens := u.totalTokens }
      | none => {},
    toolCalls := if c.delta.toolCalls = [] then []
      else convertToolCallsFromOpenAI c.delta.toolCalls,
    done := false,
    error := none }

/-- What the decode goroutine observably did: the chunks sent on the channel,
in order, and whether the deferred channel close / resource release ran. -/
structure DecodeResult where
  sent : List ChatStreamChunk
  closed : Bool
deriving DecidableEq, Repr

/-- The decode loop body. `events` are the pending `stream.Recv()` outcomes
(empty list = the next read returns `io.EOF`); `k` counts the raced sends so
far. On `io.EOF` the final `ChatStreamChunk{Done: true}` is sent with a plain
(unguarded) channel send, as in the source; a read error is wrapped as
`fmt.Errorf("stream error: %w", err)` and likewise sent unguarded; a frame
with no choices is skipped; a frame with choices builds a chunk whose send is
raced against `ctx.Done()` — if cancellation wins, the goroutine returns
without sending. -/
def decodeLoop (cancel : Nat → Bool) :
    List (Except GoErr OpenAIStreamFrame) → Nat → DecodeResult
| [], _ => ⟨[{ done := true }], true⟩
| .error e :: _, _ => ⟨[{ error := some (.wrap "stream error: " e), done := true }], true⟩
| .ok f :: rest, k =>
  match f.choices with
  | [] => decodeLoop cancel rest k
  | c :: _ =>
    if cancel k then ⟨[], true⟩
    else
      let r := decodeLoop cancel rest (k + 1)
      ⟨mkStreamChunk f c :: r.sent, r.closed⟩

/-- The observable behaviour of the goroutine spawned by
`StreamChatCompletion` once the stream opened successfully. -/
def streamDecode (cancel : Nat → Bool)
    (events : List (Except GoErr OpenAIStreamFrame)) : DecodeResult :=
  decodeLoop cancel events 0

/-- The cancellation token never fires. -/
def noCancel : Nat → Bool := fun _ => false

/-! ## Slice-aliasing model of `MemoryState.GetState`

`GetState` executes `return m.state`, a Go struct copy: every value field is
copied, but the `Context.Messages` field is a slice, and a slice copy is a
copy of the header (array pointer, length) only — the backing array is
shared between the store and the returned snapshot. To express this the
message list of a state is represented by a `GoSlice` header pointing into an
explicit heap of backing arrays. -/

/-- A Go slice header over a heap of `Message` arrays (offset 0). -/
structure GoSlice where
  arrId : Nat
  len : Nat
deriving DecidableEq, Repr

/-- The messages observed through a slice header in heap `h`. -/
def sliceRead (h : List (List Message)) (sl : GoSlice) : List Message :=
  (h.getD sl.arrId []).take sl.len

/-- In-place element write `sl[i].Content = c` against heap `h` — a caller
mutating the message list of a state value it holds. -/
def heapWriteContent (h : List (List Message)) (sl : GoSlice) (i : Nat)
    (c : String) : List (List Message) :=
  if i < sl.len then
    let arr := h.getD sl.arrId []
    match arr.get? i with
    | some m => h.set sl.arrId (arr.set i { m with content := c })
    | none => h
  else h

/-- `state.Context` with the by-reference `Messages` field made explicit. -/
structure ContextRef where
  mode : Mode := .plan
  systemPrompt : String := ""
  sessionID : String := ""
  messages : GoSlice
  promptTokens : Int := 0
  completionTokens : Int := 0
  created : Nat := 0
  updated : Nat := 0
  workingDirectory : String := ""
deriving DecidableEq, Repr

/-- `state.AppState` with the by-reference message list made explicit. -/
structure AppStateRef where
  permissions : Permissions := {}
  context : ContextRef
  model : Model := {}
  status : Status := {}
deriving DecidableEq, Repr

/-- `state.MemoryState`: the store holding the current state value. -/
structure MemoryStateRep where
  state : AppStateRef
deriving DecidableEq, Repr

/-- `MemoryState.GetState`: `return m.state` — a struct copy, so the returned
snapshot carries the same slice header (same backing array) as the store. -/
def MemoryStateRep.getState (m : MemoryStateRep) : AppStateRef :=
  m.state

/-! ## C1 -/

/-- Failing input for C1: an assistant message followed by a later user
message, and a chunk matching the first. -/
def c1MsgA : Message := { role := .assistant, content := "Hi", timestamp := 1 }

def c1MsgU : Message := { role := .user, content := "question", timestamp := 2 }

def c1Chunk : Message := { role := .assistant, content := " there", timestamp := 1 }

def c1State : AppState := { context := { messages := [c1MsgA, c1MsgU] } }

/-- Second failing input for C1: two messages sharing the chunk's role and
timestamp; the claim's "most recent" is the second one. -/
def c1StateTwo : AppState :=
  { context := { messages :=
      [{ role := .assistant, content := "A", timestamp := 1 },
       { role := .assistant, content := "B", timestamp := 1 }] } }

def c1ChunkTwo : Message := { role := .assistant, content := "+", timestamp := 1 }

/-- C1 (code_bug): `MessageChunkAction.Execute` does merge the chunk into a
message sharing its role and timestamp, but (i) via
`append(s.Context.Messages[:idx], a.Message)` it drops every message after
the matched one instead of leaving them unchanged — on `c1State` the user
message `c1MsgU` disappears — and (ii) it merges with the first matching
message, not the most recent one — on `c1StateTwo` the content `"A"` is
accumulated and the most recent matching message `"B"` is dropped. -/
theorem c1_messageChunk_drops_tail_and_matches_first :
    executeAction (.messageChunk c1Chunk) 9 c1State
      = .ok { c1State with
              context.messages := [{ c1Chunk with content := "Hi there" }],
              context.updated := 9 }
    ∧ [{ c1Chunk with content := "Hi there" }]
        ≠ [{ c1Chunk with content := "Hi there" }, c1MsgU]
    ∧ executeAction (.messageChunk c1ChunkTwo) 9 c1StateTwo
      = .ok { c1StateTwo with
              context.messages := [{ c1ChunkTwo with content := "A+" }],
              context.updated := 9 } := by
  refine ⟨by rfl, by decide, by rfl⟩

/-! ## C2 -/

def c2Msg : Message := { role := .user, content := "hello", timestamp := 0 }

/-- The store's backing heap: one array holding the one message. -/
def c2Heap0 : List (List Message) := [[c2Msg]]

/-- The store: its state's message slice points at array 0. -/
def c2Store : MemoryStateRep :=
  { state := { context := { messages := { arrId := 0, len := 1 } } } }

/-- The heap after the caller mutates element 0 of the snapshot returned by
`GetState`. -/
def c2Heap1 : List (List Message) :=
  heapWriteContent c2Heap0 (c2Store.getState).context.messages 0 "mutated"

/-- C2 (code_bug): `GetState` returns a shallow struct copy, so the snapshot
shares the `Messages` backing array with the store; after the caller writes
`snapshot.Context.Messages[0].Content = "mutated"`, a subsequent `GetState`
observes the mutated message — the store's observed state changed, violating
copy isolation. -/
theorem c2_getState_shares_message_array :
    sliceRead c2Heap0 (c2Store.getState).context.messages = [c2Msg]
    ∧ sliceRead c2Heap1 (c2Store.getState).context.messages
        = [{ c2Msg with content := "mutated" }]
    ∧ sliceRead c2Heap1 (c2Store.getState).context.messages
        ≠ sliceRead c2Heap0 (c2Store.getState).context.messages := by
  refine ⟨by decide, by decide, by decide⟩

/-! ## C3 -/

/-- C3 (confirmed): dispatching any sequence of actions one after another
succeeds (every `Execute` of the closed action set returns a nil error), and
the state held by the store afterwards is exactly the left-fold of
stamped `Execute` over the initial state and the whole sequence — applying
this at every prefix `steps.take N` gives the state observed after the N-th
dispatch; no update is lost or duplicated. -/
theorem c3_dispatch_is_left_fold (s0 : AppState)
    (steps : List (AgentAction × Nat × Nat)) :
    dispatchList s0 steps = some (List.foldl applyDispatch s0 steps) := by
  induction steps generalizing s0 with
  | nil => rfl
  | cons step rest ih =>
    obtain ⟨s2, h⟩ := executeAction_ok step.1 step.2.1 s0
    simp [dispatchList, dispatchStep, applyDispatch, h, ih]

/-! ## C9 -/

theorem chunkScan_eq_none (a : Message) (l : List Message)
    (h : ∀ m ∈ l, ¬(m.role = a.role ∧ m.timestamp = a.timestamp)) :
    chunkScan a l = none := by
  induction l with
  | nil => rfl
  | cons x xs ih =>
    simp only [chunkScan]
    rw [if_neg (h x (by simp)), ih (fun m hm => h m (by simp [hm]))]
    rfl

theorem chunkScan_append_last (a : Message) (l : List Message) (m : Message)
    (hl : ∀ x ∈ l, ¬(x.role = a.role ∧ x.timestamp = a.timestamp))
    (hm : m.role = a.role ∧ m.timestamp = a.timestamp) :
    chunkScan a (l ++ [m])
      = some (l ++ [{ a with content := m.content ++ a.content }]) := by
  induction l with
  | nil => simp [chunkScan, hm]
  | cons x xs ih =>
    simp only [List.cons_append, chunkScan, List.append_eq]
    rw [if_neg (hl x (by simp)), ih (fun y hy => hl y (by simp [hy]))]
    rfl

/-- The user message appended by `ChatCompletionStartedAction` in the C9
scenario. -/
def helloMsg (t0 : Nat) : Message := { role := .user, content := "Hello", timestamp := t0 }

/-- An assistant chunk message with delta `d` and start timestamp `ts`. -/
def chunkMsg (d : String) (ts : Nat) : Message :=
  { role := .assistant, content := d, timestamp := ts }

def c9StartStep (t0 u0 : Nat) : AgentAction × Nat × Nat :=
  (.chatCompletionStarted .user "Hello", t0, u0)

/-- The C9 dispatch sequence: the start action followed by the three chunk
actions sharing the assistant timestamp `ts`. -/
def c9Steps (ts t0 u0 e1 u1 e2 u2 e3 u3 : Nat) : List (AgentAction × Nat × Nat) :=
  [c9StartStep t0 u0,
   (.messageChunk (chunkMsg "Hi" ts), e1, u1),
   (.messageChunk (chunkMsg " there" ts), e2, u2),
   (.messageChunk (chunkMsg "!" ts), e3, u3)]

theorem dispatchList_cons_ok {s s2 : AppState} {step : AgentAction × Nat × Nat}
    {rest : List (AgentAction × Nat × Nat)} (h : dispatchStep s step = some s2) :
    dispatchList s (step :: rest) = dispatchList s2 rest := by
  simp [dispatchList, h]

theorem dispatchStep_start (s : AppState) (role : Role) (content : String) (tE tS : Nat) :
    dispatchStep s (.chatCompletionStarted role content, tE, tS)
      = some { s with
               model.busy := true,
               context.messages := s.context.messages
                 ++ [{ role := role, content := content, timestamp := tE }],
               context.updated := tS } := rfl

theorem dispatchStep_chunk_none {s : AppState} {m : Message} (tE tS : Nat)
    (h : chunkScan m s.context.messages = none) :
    dispatchStep s (.messageChunk m, tE, tS)
      = some { s with
               context.messages := s.context.messages ++ [m],
               context.updated := tS } := by
  simp only [dispatchStep, executeAction, h]

theorem dispatchStep_chunk_some {s : AppState} {m : Message} {msgs : List Message}
    (tE tS : Nat) (h : chunkScan m s.context.messages = some msgs) :
    dispatchStep s (.messageChunk m, tE, tS)
      = some { s with context.messages := msgs, context.updated := tS } := by
  simp only [dispatchStep, executeAction, h]

/-- C9 (corrected): starting from a state with no assistant message carrying
the shared chunk timestamp `ts`, the start action grows the message list by
one with the user `"Hello"` entry last and the busy flag set, and the three
chunk dispatches leave exactly one assistant message with timestamp `ts`,
whose content is `"Hi there!"`. (Without the added hypothesis the claim fails;
see the counterexample.) -/
theorem c9_start_then_chunks (s0 : AppState) (ts t0 u0 e1 u1 e2 u2 e3 u3 : Nat)
    (h : ∀ m ∈ s0.context.messages, ¬(m.role = Role.assistant ∧ m.timestamp = ts)) :
    (applyDispatch s0 (c9StartStep t0 u0)).context.messages.length
        = s0.context.messages.length + 1
    ∧ (applyDispatch s0 (c9StartStep t0 u0)).context.messages.getLast?
        = some (helloMsg t0)
    ∧ (applyDispatch s0 (c9StartStep t0 u0)).model.busy = true
    ∧ (dispatchList s0 (c9Steps ts t0 u0 e1 u1 e2 u2 e3 u3)).map
        (fun sF => sF.context.messages.filter
          (fun m => decide (m.role = Role.assistant ∧ m.timestamp = ts)))
      = some [chunkMsg "Hi there!" ts] := by
  have hAD : applyDispatch s0 (c9StartStep t0 u0)
      = { s0 with
          model.busy := true,
          context.messages := s0.context.messages ++ [helloMsg t0],
          context.updated := u0 } := rfl
  have hnomatch : ∀ (d : String), ∀ x ∈ s0.context.messages ++ [helloMsg t0],
      ¬(x.role = (chunkMsg d ts).role ∧ x.timestamp = (chunkMsg d ts).timestamp) := by
    intro d x hx
    rcases List.mem_append.1 hx with hx | hx
    · exact h x hx
    · simp only [List.mem_singleton] at hx
      subst hx
      simp [helloMsg, chunkMsg]
  have hscan1 : chunkScan (chunkMsg "Hi" ts) (s0.context.messages ++ [helloMsg t0])
      = none := chunkScan_eq_none _ _ (hnomatch "Hi")
  have hscan2 : chunkScan (chunkMsg " there" ts)
      ((s0.context.messages ++ [helloMsg t0]) ++ [chunkMsg "Hi" ts])
      = some ((s0.context.messages ++ [helloMsg t0]) ++ [chunkMsg "Hi there" ts]) :=
    chunkScan_append_last _ _ _ (hnomatch " there") ⟨rfl, rfl⟩
  have hscan3 : chunkScan (chunkMsg "!" ts)
      ((s0.context.messages ++ [helloMsg t0]) ++ [chunkMsg "Hi there" ts])
      = some ((s0.context.messages ++ [helloMsg t0]) ++ [chunkMsg "Hi there!" ts]) :=
    chunkScan_append_last _ _ _ (hnomatch "!") ⟨rfl, rfl⟩
  refine ⟨?_, ?_, ?_, ?_⟩
  · rw [hAD]; simp
  · rw [hAD]; simp [List.getLast?_concat]
  · rw [hAD]
  · rw [c9Steps, c9StartStep,
        dispatchList_cons_ok (dispatchStep_start s0 .user "Hello" t0 u0),
        dispatchList_cons_ok (dispatchStep_chunk_none e1 u1 hscan1),
        dispatchList_cons_ok (dispatchStep_chunk_some e2 u2 hscan2),
        dispatchList_cons_ok (dispatchStep_chunk_some e3 u3 hscan3)]
    simp only [dispatchList, Option.map_some']
    congr 1
    rw [List.filter_append, List.filter_append]
    rw [List.filter_eq_nil_iff.2 (fun a ha => by simp only [decide_eq_true_eq]; exact h a ha)]
    simp [helloMsg, chunkMsg]

/-- C9 counterexample input: the starting state already holds an assistant
message with the shared timestamp 5. -/
def c9CexState : AppState :=
  { context := { messages := [{ role := .assistant, content := "X", timestamp := 5 }] } }

/-- C9 (counterexample to the claim as stated): starting from `c9CexState` —
a legal "any state" — the same dispatch sequence leaves one assistant message
with timestamp 5 whose content is `"XHi there!"`, not `"Hi there!"` as the
claim requires. -/
theorem c9_counterexample :
    (dispatchList c9CexState (c9Steps 5 1 2 3 4 6 7 8 9)).map
        (fun sF => sF.context.messages.filter
          (fun m => decide (m.role = Role.assistant ∧ m.timestamp = 5)))
      = some [{ role := .assistant, content := "XHi there!", timestamp := 5 }]
    ∧ ({ role := .assistant, content := "XHi there!", timestamp := 5 } : Message)
        ≠ chunkMsg "Hi there!" 5 := by
  refine ⟨by decide, by decide⟩

/-- Witness for C9: the amended theorem applied at the empty initial state
with timestamp 5 and concrete clock values. -/
theorem c9_start_then_chunks_witness :
    (applyDispatch {} (c9StartStep 1 2)).context.messages.length
        = ({} : AppState).context.messages.length + 1
    ∧ (applyDispatch {} (c9StartStep 1 2)).context.messages.getLast?
        = some (helloMsg 1)
    ∧ (applyDispatch {} (c9StartStep 1 2)).model.busy = true
    ∧ (dispatchList {} (c9Steps 5 1 2 3 4 6 7 8 9)).map
        (fun sF => sF.context.messages.filter
          (fun m => decide (m.role = Role.assistant ∧ m.timestamp = 5)))
      = some [chunkMsg "Hi there!" 5] :=
  c9_start_then_chunks {} 5 1 2 3 4 6 7 8 9 (by simp)

/-! ## Retry executor lemmas (C5, C6, C7) -/

theorem string_toList_append (a b : String) : (a ++ b).toList = a.toList ++ b.toList := rfl

theorem goContains_middle (pre suf : String) (mid : String) :
    goContains (pre ++ mid ++ suf) mid = true := by
  unfold goContains
  rw [decide_eq_true_eq]
  refine ⟨pre.toList, suf.toList, ?_⟩
  simp [string_toList_append]

theorem effectiveRetries_pos (cfg : Int) : 0 < effectiveRetries cfg := by
  unfold effectiveRetries
  split
  · norm_num
  · omega

theorem retryRequest_eq (cfg : Int) (env : RetryEnv) :
    retryRequest cfg env
      = retryLoop env (effectiveRetries cfg) (effectiveRetries cfg) 0 none [] := rfl

theorem retryLoop_step_ctx {env : RetryEnv} {R i : Nat} {ei ce : GoErr} (fuel : Nat)
    (hatt : env.attemptResult i = some ei) (hctx : env.ctxErrAfter i = some ce)
    (lastErr : Option GoErr) (waits : List Nat) :
    retryLoop env R (fuel + 1) i lastErr waits = ⟨.err ce, i + 1, waits⟩ := by
  simp [retryLoop, hatt, hctx]

theorem retryLoop_step_marker {env : RetryEnv} {R i : Nat} {ei : GoErr} (fuel : Nat)
    (hatt : env.attemptResult i = some ei) (hctx : env.ctxErrAfter i = none)
    (hmk : goContains ei.text "invalid_api_key" = true
           ∨ goContains ei.text "model_not_found" = true)
    (lastErr : Option GoErr) (waits : List Nat) :
    retryLoop env R (fuel + 1) i lastErr waits = ⟨.err ei, i + 1, waits⟩ := by
  rcases hmk with hmk | hmk <;> simp [retryLoop, hatt, hctx, hmk]

theorem retryLoop_step_backoff_cancel {env : RetryEnv} {R i : Nat} {ei ce : GoErr}
    (fuel : Nat) (hatt : env.attemptResult i = some ei)
    (hctx : env.ctxErrAfter i = none)
    (hm1 : goContains ei.text "invalid_api_key" = false)
    (hm2 : goContains ei.text "model_not_found" = false)
    (hlt : i < R - 1) (hbk : env.ctxDuringBackoff i = some ce)
    (lastErr : Option GoErr) (waits : List Nat) :
    retryLoop env R (fuel + 1) i lastErr waits = ⟨.err ce, i + 1, waits⟩ := by
  simp [retryLoop, hatt, hctx, hm1, hm2, hlt, hbk]

theorem retryLoop_step_continue {env : RetryEnv} {R i : Nat} {ei : GoErr}
    (fuel : Nat) (hatt : env.attemptResult i = some ei)
    (hctx : env.ctxErrAfter i = none)
    (hm1 : goContains ei.text "invalid_api_key" = false)
    (hm2 : goContains ei.text "model_not_found" = false)
    (hlt : i < R - 1) (hbk : env.ctxDuringBackoff i = none)
    (lastErr : Option GoErr) (waits : List Nat) :
    retryLoop env R (fuel + 1) i lastErr waits
      = retryLoop env R fuel (i + 1) (some ei) (waits ++ [2 ^ i]) := by
  simp [retryLoop, hatt, hctx, hm1, hm2, hlt, hbk]

theorem retryLoop_step_last {env : RetryEnv} {R i : Nat} {ei : GoErr}
    (fuel : Nat) (hatt : env.attemptResult i = some ei)
    (hctx : env.ctxErrAfter i = none)
    (hm1 : goContains ei.text "invalid_api_key" = false)
    (hm2 : goContains ei.text "model_not_found" = false)
    (hge : ¬ i < R - 1) (lastErr : Option GoErr) (waits : List Nat) :
    retryLoop env R (fuel + 1) i lastErr waits
      = retryLoop env R fuel (i + 1) (some ei) waits := by
  simp [retryLoop, hatt, hctx, hm1, hm2, hge]

theorem retryLoop_exhausted {env : RetryEnv} {R i : Nat} (le : GoErr)
    (waits : List Nat) :
    retryLoop env R 0 i (some le) waits = ⟨.err (aggregateErr R le), i, waits⟩ := rfl

/-- A clean failed attempt: `fn` fails with `e j`, the context is not
cancelled (neither at the post-attempt check nor during the backoff), and the
error text matches no non-retryable marker. -/
def cleanFailure (env : RetryEnv) (e : Nat → GoErr) (j : Nat) : Prop :=
  env.attemptResult j = some (e j) ∧ env.ctxErrAfter j = none
    ∧ goContains (e j).text "invalid_api_key" = false
    ∧ goContains (e j).text "model_not_found" = false
    ∧ env.ctxDuringBackoff j = none

theorem retryLoop_reach (env : RetryEnv) (R : Nat) (e : Nat → GoErr) (i : Nat)
    (hiR : i < R) (hclean : ∀ j, j < i → cleanFailure env e j) :
    retryLoop env R R 0 none []
      = retryLoop env R (R - i) i (if i = 0 then none else some (e (i - 1)))
          ((List.range i).map (2 ^ ·)) := by
  induction i with
  | zero => simp
  | succ n ih =>
    have hn : n < R := Nat.lt_of_succ_lt hiR
    obtain ⟨h1, h2, h3, h4, h5⟩ := hclean n (Nat.lt_succ_self n)
    rw [ih hn (fun j hj => hclean j (Nat.lt_trans hj (Nat.lt_succ_self n)))]
    have hfuel : R - n = (R - (n + 1)) + 1 := by omega
    rw [hfuel, retryLoop_step_continue _ h1 h2 h3 h4 (by omega) h5]
    simp [List.range_succ]

/-- C5 (confirmed): when every attempt fails with a retryable error and the
context never cancels, `retryRequest` makes exactly `R` attempts
(`R = effectiveRetries cfg`, which is 3 whenever the configured value is
unset, i.e. `<= 0`), performs the backoffs `2^0 .. 2^(R-2)`, and returns the
aggregate error — `fmt.Errorf("request failed after %d retries: %w", R,
lastErr)` — which wraps the last underlying error and whose text contains
`"after R retries"`. -/
theorem c5_retry_exhaustion (cfg : Int) (env : RetryEnv) (e : Nat → GoErr)
    (hclean : ∀ j, j < effectiveRetries cfg → cleanFailure env e j) :
    retryRequest cfg env
      = ⟨.err (aggregateErr (effectiveRetries cfg) (e (effectiveRetries cfg - 1))),
         effectiveRetries cfg,
         (List.range (effectiveRetries cfg - 1)).map (2 ^ ·)⟩
    ∧ aggregateErr (effectiveRetries cfg) (e (effectiveRetries cfg - 1))
        = .wrap ("request failed after " ++ toString (effectiveRetries cfg)
            ++ " retries: ") (e (effectiveRetries cfg - 1))
    ∧ goContains
        (aggregateErr (effectiveRetries cfg) (e (effectiveRetries cfg - 1))).text
        ("after " ++ toString (effectiveRetries cfg) ++ " retries") = true
    ∧ (cfg ≤ 0 → effectiveRetries cfg = 3) := by
  have hpos := effectiveRetries_pos cfg
  have hlast : effectiveRetries cfg - 1 < effectiveRetries cfg := by omega
  obtain ⟨h1, h2, h3, h4, h5⟩ := hclean (effectiveRetries cfg - 1) hlast
  refine ⟨?_, rfl, ?_, ?_⟩
  · rw [retryRequest_eq,
        retryLoop_reach env (effectiveRetries cfg) e (effectiveRetries cfg - 1) hlast
          (fun j hj => hclean j (by omega))]
    have hf : effectiveRetries cfg - (effectiveRetries cfg - 1) = 0 + 1 := by omega
    rw [hf, retryLoop_step_last 0 h1 h2 h3 h4 (by omega), retryLoop_exhausted]
    have hsucc : effectiveRetries cfg - 1 + 1 = effectiveRetries cfg := by omega
    rw [hsucc]
  · unfold goContains
    rw [decide_eq_true_eq]
    refine ⟨"request failed ".toList, (": " ++ (e (effectiveRetries cfg - 1)).text).toList, ?_⟩
    simp only [aggregateErr, GoErr.text, string_toList_append]
    have h1' : "request failed after ".toList
        = "request failed ".toList ++ "after ".toList := by decide
    have h2' : " retries: ".toList = " retries".toList ++ ": ".toList := by decide
    rw [h1', h2']
    simp [List.append_assoc]
  · intro hcfg
    unfold effectiveRetries
    simp [hcfg]

/-- Environment for the C5 witness: every attempt fails with the retryable
error `"boom"` and the context never cancels. -/
def c5Env : RetryEnv :=
  { attemptResult := fun _ => some (.simple "boom"),
    ctxErrAfter := fun _ => none,
    ctxDuringBackoff := fun _ => none }

/-- Witness for C5: unset `maxRetries` (0), three failing attempts. -/
theorem c5_retry_exhaustion_witness :
    retryRequest 0 c5Env
      = ⟨.err (aggregateErr (effectiveRetries 0) ((fun _ => GoErr.simple "boom") (effectiveRetries 0 - 1))),
         effectiveRetries 0,
         (List.range (effectiveRetries 0 - 1)).map (2 ^ ·)⟩
    ∧ aggregateErr (effectiveRetries 0) ((fun _ => GoErr.simple "boom") (effectiveRetries 0 - 1))
        = .wrap ("request failed after " ++ toString (effectiveRetries 0)
            ++ " retries: ") ((fun _ => GoErr.simple "boom") (effectiveRetries 0 - 1))
    ∧ goContains
        (aggregateErr (effectiveRetries 0) ((fun _ => GoErr.simple "boom") (effectiveRetries 0 - 1))).text
        ("after " ++ toString (effectiveRetries 0) ++ " retries") = true
    ∧ ((0 : Int) ≤ 0 → effectiveRetries 0 = 3) :=
  c5_retry_exhaustion 0 c5Env (fun _ => .simple "boom")
    (fun j _ =>
      ⟨rfl, rfl,
       show goContains (GoErr.simple "boom").text "invalid_api_key" = false by decide,
       show goContains (GoErr.simple "boom").text "model_not_found" = false by decide,
       rfl⟩)

/-- C6 (confirmed): when the first attempt fails with an error whose text
contains a non-retryable marker (`"invalid_api_key"` or `"model_not_found"`)
and the context is not cancelled at the post-attempt check, `retryRequest`
returns that error unchanged after exactly one attempt and no backoff,
whatever the configured maximum retries. -/
theorem c6_non_retryable_single_attempt (cfg : Int) (env : RetryEnv) (e : GoErr)
    (hatt : env.attemptResult 0 = some e)
    (hctx : env.ctxErrAfter 0 = none)
    (hmk : goContains e.text "invalid_api_key" = true
           ∨ goContains e.text "model_not_found" = true) :
    retryRequest cfg env = ⟨.err e, 1, []⟩ := by
  rw [retryRequest_eq]
  have hpos := effectiveRetries_pos cfg
  have hf : effectiveRetries cfg = (effectiveRetries cfg - 1) + 1 := by omega
  rw [hf]
  exact retryLoop_step_marker _ hatt hctx hmk none []

/-- Environment for the C6 witness: the first attempt is rejected with an
`invalid_api_key` error. -/
def c6Env : RetryEnv :=
  { attemptResult := fun _ => some (.simple "server says invalid_api_key"),
    ctxErrAfter := fun _ => none,
    ctxDuringBackoff := fun _ => none }

/-- Witness for C6: a large configured `maxRetries` (7) still yields exactly
one attempt. -/
theorem c6_non_retryable_single_attempt_witness :
    retryRequest 7 c6Env = ⟨.err (.simple "server says invalid_api_key"), 1, []⟩ :=
  c6_non_retryable_single_attempt 7 c6Env _ rfl rfl (.inl (by decide))

/-- C7 (confirmed): after any reachable failed attempt `i` (all earlier
attempts having failed cleanly):
(1) if the context is already cancelled at the post-attempt check, the
executor returns the cancellation error immediately and unwrapped, with
`i + 1` attempts in total — the check precedes the non-retryable
classification, so this holds with no assumption on attempt `i`'s error text;
the completed waits are exactly `2^0 .. 2^(i-1)`, i.e. the wait before
attempt `j + 1` was `2^j`;
(2) otherwise, for a retryable error with the backoff still pending
(`i < R - 1`), if the cancellation token fires during the wait the executor
aborts immediately with the cancellation error: the `2^i` wait is not
completed (the waits list still ends at `2^(i-1)`) and no further attempt is
made. -/
theorem c7_cancellation_checks :
    (∀ (cfg : Int) (env : RetryEnv) (e : Nat → GoErr) (i : Nat) (ei ce : GoErr),
      (∀ j, j < i → cleanFailure env e j) → i < effectiveRetries cfg →
      env.attemptResult i = some ei → env.ctxErrAfter i = some ce →
      retryRequest cfg env = ⟨.err ce, i + 1, (List.range i).map (2 ^ ·)⟩)
    ∧ (∀ (cfg : Int) (env : RetryEnv) (e : Nat → GoErr) (i : Nat) (ei ce : GoErr),
      (∀ j, j < i → cleanFailure env e j) → i < effectiveRetries cfg - 1 →
      env.attemptResult i = some ei → env.ctxErrAfter i = none →
      goContains ei.text "invalid_api_key" = false →
      goContains ei.text "model_not_found" = false →
      env.ctxDuringBackoff i = some ce →
      retryRequest cfg env = ⟨.err ce, i + 1, (List.range i).map (2 ^ ·)⟩) := by
  constructor
  · intro cfg env e i ei ce hclean hiR hatt hctx
    rw [retryRequest_eq, retryLoop_reach env (effectiveRetries cfg) e i hiR hclean]
    have hf : effectiveRetries cfg - i = (effectiveRetries cfg - i - 1) + 1 := by omega
    rw [hf]
    exact retryLoop_step_ctx _ hatt hctx _ _
  · intro cfg env e i ei ce hclean hiR hatt hctx hm1 hm2 hbk
    have hpos := effectiveRetries_pos cfg
    have hiR' : i < effectiveRetries cfg := by omega
    rw [retryRequest_eq, retryLoop_reach env (effectiveRetries cfg) e i hiR' hclean]
    have hf : effectiveRetries cfg - i = (effectiveRetries cfg - i - 1) + 1 := by omega
    rw [hf]
    exact retryLoop_step_backoff_cancel _ hatt hctx hm1 hm2 hiR hbk _ _

/-- Environment for the C7 witness, part (1): attempt 0 fails retryable;
attempt 1 fails with a non-retryable marker while the context is already
cancelled — the cancellation error wins. -/
def c7EnvA : RetryEnv :=
  { attemptResult := fun i =>
      if i = 0 then some (.simple "timeout") else some (.simple "invalid_api_key"),
    ctxErrAfter := fun i => if i = 0 then none else some (.simple "context canceled"),
    ctxDuringBackoff := fun _ => none }

/-- Environment for the C7 witness, part (2): attempt 0 fails retryable and
the context fires during the first backoff wait. -/
def c7EnvB : RetryEnv :=
  { attemptResult := fun _ => some (.simple "timeout"),
    ctxErrAfter := fun _ => none,
    ctxDuringBackoff := fun i =>
      if i = 0 then some (.simple "context canceled") else none }

/-- Witness for C7: both conjuncts applied at concrete inputs with default
`maxRetries` (cfg 0, so R = 3). -/
theorem c7_cancellation_checks_witness :
    retryRequest 0 c7EnvA
      = ⟨.err (.simple "context canceled"), 1 + 1, (List.range 1).map (2 ^ ·)⟩
    ∧ retryRequest 0 c7EnvB
      = ⟨.err (.simple "context canceled"), 0 + 1, (List.range 0).map (2 ^ ·)⟩ :=
  ⟨c7_cancellation_checks.1 0 c7EnvA (fun _ => .simple "timeout") 1
      (.simple "invalid_api_key") (.simple "context canceled")
      (fun j hj => by
        have hj0 : j = 0 := by omega
        subst hj0
        exact ⟨rfl, rfl,
          show goContains (GoErr.simple "timeout").text "invalid_api_key" = false by decide,
          show goContains (GoErr.simple "timeout").text "model_not_found" = false by decide,
          rfl⟩)
      (by decide) rfl rfl,
   c7_cancellation_checks.2 0 c7EnvB (fun _ => .simple "timeout") 0
      (.simple "timeout") (.simple "context canceled")
      (fun j hj => absurd hj (Nat.not_lt_zero j))
      (by decide) rfl rfl (by decide) (by decide) rfl⟩

/-! ## Streaming decode loop theorems (C4, C8, C10) -/

/-- The content chunks produced from a list of successfully read frames:
frames with an empty choice list contribute nothing, every other frame
contributes the chunk built from its first choice. -/
def contentChunksOf (frames : List OpenAIStreamFrame) : List ChatStreamChunk :=
  frames.filterMap (fun f => f.choices.head?.map (mkStreamChunk f))

theorem contentChunksOf_not_done (frames : List OpenAIStreamFrame) :
    ∀ ch ∈ contentChunksOf frames, ch.done = false ∧ ch.error = none := by
  intro ch hch
  simp only [contentChunksOf, List.mem_filterMap, Option.map_eq_some'] at hch
  obtain ⟨f, _, c, _, hmk⟩ := hch
  subst hmk
  exact ⟨rfl, rfl⟩

theorem decodeLoop_all_ok (frames : List OpenAIStreamFrame) (k : Nat) :
    decodeLoop noCancel (frames.map .ok) k
      = ⟨contentChunksOf frames ++ [{ done := true }], true⟩ := by
  induction frames generalizing k with
  | nil => rfl
  | cons f rest ih =>
    cases hc : f.choices with
    | nil =>
      simp [decodeLoop, contentChunksOf, hc, ih k]
    | cons c cs =>
      simp [decodeLoop, contentChunksOf, hc, noCancel, ih (k + 1)]

theorem decodeLoop_error_tail (frames : List OpenAIStreamFrame) (e : GoErr)
    (rest : List (Except GoErr OpenAIStreamFrame)) (k : Nat) :
    decodeLoop noCancel (frames.map .ok ++ .error e :: rest) k
      = ⟨contentChunksOf frames
          ++ [{ error := some (.wrap "stream error: " e), done := true }], true⟩ := by
  induction frames generalizing k with
  | nil => rfl
  | cons f fs ih =>
    cases hc : f.choices with
    | nil =>
      simp [decodeLoop, contentChunksOf, hc, ih k]
    | cons c cs =>
      simp [decodeLoop, contentChunksOf, hc, noCancel, ih (k + 1)]

/-- A content frame of the C8 scenario: one choice carrying delta `d`. -/
def c8Frame (d : String) : OpenAIStreamFrame :=
  { model := "m", choices := [{ delta := { content := d, toolCalls := [] } }], usage := none }

/-- The C8 scenario stream: 4 content frames, then end-of-stream (the
`data: [DONE]` terminator surfaces as `io.EOF`). -/
def c8Events : List (Except GoErr OpenAIStreamFrame) :=
  [c8Frame "a", c8Frame "b", c8Frame "c", c8Frame "d"].map .ok

/-- The chunk the consumer receives for C8's frame with delta `d`. -/
def c8Chunk (d : String) : ChatStreamChunk := { model := "m", delta := d }

/-- C8 (confirmed): without cancellation, (1) a stream read to end-of-stream
yields the content chunks followed by exactly one terminal chunk with
`Done = true` and empty delta, and the channel is closed; (2) a read error
yields the content chunks of the frames before it followed by exactly one
chunk carrying the wrapped error with `Done = true`, and the channel is
closed; (3) in particular 4 content frames then `[DONE]` yield exactly the 4
content chunks plus one terminal chunk, i.e. 5 chunks of which exactly one
has `Done = true`, the last, with empty delta. -/
theorem c8_terminal_chunks :
    (∀ (frames : List OpenAIStreamFrame) (k : Nat),
      decodeLoop noCancel (frames.map .ok) k
        = ⟨contentChunksOf frames ++ [{ done := true }], true⟩)
    ∧ (∀ (frames : List OpenAIStreamFrame) (e : GoErr)
        (rest : List (Except GoErr OpenAIStreamFrame)) (k : Nat),
      decodeLoop noCancel (frames.map .ok ++ .error e :: rest) k
        = ⟨contentChunksOf frames
            ++ [{ error := some (.wrap "stream error: " e), done := true }], true⟩)
    ∧ streamDecode noCancel c8Events
        = ⟨[c8Chunk "a", c8Chunk "b", c8Chunk "c", c8Chunk "d", { done := true }], true⟩
    ∧ ((streamDecode noCancel c8Events).sent.filter (fun ch => ch.done)).length = 1
    ∧ (streamDecode noCancel c8Events).sent.getLast? = some { done := true } := by
  refine ⟨decodeLoop_all_ok, decodeLoop_error_tail, by decide, by decide, by decide⟩

/-- C10 (confirmed): (1) a successfully read frame with an empty choice list
is skipped entirely — the decode loop behaves as if the frame were absent,
emitting no chunk for it; (2) a frame with first choice `c` (send not
cancelled) contributes exactly one chunk built from that frame: delta is the
choice's delta content, tool calls are converted only when the delta carries
at least one, and the usage snapshot is copied when present (zero value
otherwise). -/
theorem c10_empty_choices_skipped :
    (∀ (cancel : Nat → Bool) (f : OpenAIStreamFrame)
        (rest : List (Except GoErr OpenAIStreamFrame)) (k : Nat),
      f.choices = [] →
      decodeLoop cancel (.ok f :: rest) k = decodeLoop cancel rest k)
    ∧ (∀ (cancel : Nat → Bool) (f : OpenAIStreamFrame) (c : OpenAIStreamChoice)
        (cs : List OpenAIStreamChoice) (rest : List (Except GoErr OpenAIStreamFrame))
        (k : Nat),
      f.choices = c :: cs → cancel k = false →
      decodeLoop cancel (.ok f :: rest) k
        = ⟨mkStreamChunk f c :: (decodeLoop cancel rest (k + 1)).sent,
           (decodeLoop cancel rest (k + 1)).closed⟩
      ∧ (mkStreamChunk f c).delta = c.delta.content
      ∧ (mkStreamChunk f c).model = f.model
      ∧ (mkStreamChunk f c).done = false
      ∧ (mkStreamChunk f c).toolCalls
          = (if c.delta.toolCalls = [] then []
             else convertToolCallsFromOpenAI c.delta.toolCalls)
      ∧ (f.usage = none → (mkStreamChunk f c).usage = {})
      ∧ (∀ u, f.usage = some u →
          (mkStreamChunk f c).usage
            = { promptTokens := u.promptTokens, completionTokens := u.completionTokens,
                totalTokens := u.totalTokens })) := by
  constructor
  · intro cancel f rest k hc
    simp [decodeLoop, hc]
  · intro cancel f c cs rest k hc hk
    refine ⟨by simp [decodeLoop, hc, hk], rfl, rfl, rfl, rfl, ?_, ?_⟩
    · intro hu; simp [mkStreamChunk, hu]
    · intro u hu; simp [mkStreamChunk, hu]

/-- Usage-only frame for the C10 witness: no choices, only usage data. -/
def c10UsageFrame : OpenAIStreamFrame :=
  { model := "m", choices := [],
    usage := some { promptTokens := 3, completionTokens := 4, totalTokens := 7 } }

/-- Witness for C10: a usage-only frame is skipped ahead of the `c8Frame "a"`
stream; a content frame contributes its chunk. -/
theorem c10_empty_choices_skipped_witness :
    (decodeLoop noCancel (.ok c10UsageFrame :: c8Events) 0
      = decodeLoop noCancel c8Events 0)
    ∧ (decodeLoop noCancel (.ok (c8Frame "a") :: []) 0
        = ⟨mkStreamChunk (c8Frame "a") { delta := { content := "a", toolCalls := [] } }
            :: (decodeLoop noCancel [] 1).sent,
           (decodeLoop noCancel [] 1).closed⟩
      ∧ (mkStreamChunk (c8Frame "a") { delta := { content := "a", toolCalls := [] } }).delta
          = ({ content := "a", toolCalls := [] } : OpenAIDelta).content
      ∧ (mkStreamChunk (c8Frame "a") { delta := { content := "a", toolCalls := [] } }).model
          = (c8Frame "a").model
      ∧ (mkStreamChunk (c8Frame "a") { delta := { content := "a", toolCalls := [] } }).done
          = false
      ∧ (mkStreamChunk (c8Frame "a") { delta := { content := "a", toolCalls := [] } }).toolCalls
          = (if ({ content := "a", toolCalls := [] } : OpenAIDelta).toolCalls = [] then []
             else convertToolCallsFromOpenAI
               ({ content := "a", toolCalls := [] } : OpenAIDelta).toolCalls)
      ∧ ((c8Frame "a").usage = none →
          (mkStreamChunk (c8Frame "a") { delta := { content := "a", toolCalls := [] } }).usage
            = {})
      ∧ (∀ u, (c8Frame "a").usage = some u →
          (mkStreamChunk (c8Frame "a") { delta := { content := "a", toolCalls := [] } }).usage
            = { promptTokens := u.promptTokens, completionTokens := u.completionTokens,
                totalTokens := u.totalTokens })) :=
  ⟨c10_empty_choices_skipped.1 noCancel c10UsageFrame c8Events 0 rfl,
   c10_empty_choices_skipped.2 noCancel (c8Frame "a")
     { delta := { content := "a", toolCalls := [] } } [] [] 0 rfl rfl⟩

/-- C4 (counterexample to the claim as stated): with the cancellation token
fired before every race (`cancel` constantly true), a stream whose read
fails — exactly what `stream.Recv` does once the context is cancelled —
still sends the error chunk on the channel, because the error and terminal
sends are plain sends, not raced against `ctx.Done()`; likewise the terminal
chunk on end-of-stream. So chunks are sent after the cancellation token has
fired. -/
theorem c4_counterexample :
    (streamDecode (fun _ => true) [.error (.simple "boom")]).sent
      = [{ error := some (.wrap "stream error: " (.simple "boom")), done := true }]
    ∧ (streamDecode (fun _ => true) []).sent = [{ done := true }]
    ∧ (streamDecode (fun _ => true) [.error (.simple "boom")]).sent ≠ [] := by
  refine ⟨rfl, rfl, by decide⟩

/-- C4 (amended): only content-chunk sends are raced against the cancellation
token: (1) when cancellation wins such a race the goroutine returns at once —
the pending chunk is not sent, nothing further is read or sent, and the
deferred releases (`close`, `cancel`, `stream.Close`) run; (2) consequently,
once the token has fired, no content chunk (`Done = false`) is ever sent —
every chunk that can still reach the channel is a terminal or error chunk
with `Done = true`, because those sends are not raced. -/
theorem c4_content_sends_raced :
    (∀ (cancel : Nat → Bool) (f : OpenAIStreamFrame) (c : OpenAIStreamChoice)
        (cs : List OpenAIStreamChoice) (rest : List (Except GoErr OpenAIStreamFrame))
        (k : Nat),
      f.choices = c :: cs → cancel k = true →
      decodeLoop cancel (.ok f :: rest) k = ⟨[], true⟩)
    ∧ (∀ (cancel : Nat → Bool) (events : List (Except GoErr OpenAIStreamFrame)) (k : Nat),
      (∀ n, cancel n = true) →
      ∀ ch ∈ (decodeLoop cancel events k).sent, ch.done = true) := by
  constructor
  · intro cancel f c cs rest k hc hk
    simp [decodeLoop, hc, hk]
  · intro cancel events
    induction events with
    | nil =>
      intro k _ ch hch
      simp only [decodeLoop, List.mem_singleton] at hch
      subst hch
      rfl
    | cons ev rest ih =>
      intro k hall ch hch
      cases ev with
      | error e =>
        simp only [decodeLoop, List.mem_singleton] at hch
        subst hch
        rfl
      | ok f =>
        cases hc : f.choices with
        | nil =>
          rw [show decodeLoop cancel (.ok f :: rest) k = decodeLoop cancel rest k by
                simp [decodeLoop, hc]] at hch
          exact ih k hall ch hch
        | cons c cs =>
          rw [show decodeLoop cancel (.ok f :: rest) k = ⟨[], true⟩ by
                simp [decodeLoop, hc, hall k]] at hch
          simp at hch

/-- Witness for the amended C4: concretely, a pending content chunk is
dropped when cancellation wins its race, and under a constantly-fired token
every chunk that is still sent has `Done = true`. -/
theorem c4_content_sends_raced_witness :
    decodeLoop (fun _ => true) (.ok (c8Frame "a") :: c8Events) 0 = ⟨[], true⟩
    ∧ ∀ ch ∈ (decodeLoop (fun _ => true) [.error (.simple "boom")] 0).sent,
        ch.done = true :=
  ⟨c4_content_sends_raced.1 (fun _ => true) (c8Frame "a")
     { delta := { content := "a", toolCalls := [] } } [] c8Events 0 rfl rfl,
   c4_content_sends_raced.2 (fun _ => true) [.error (.simple "boom")] 0 (fun _ => rfl)⟩

end Tai
